import Mathlib

/-!
Verification of the payroll core of the `paryrollPro` repository.

The embedding follows the TypeScript sources:
  * `src/shared/schema.ts` and the `CREATE TABLE` statements of
    `initDatabase` (`src/server/database.ts`) give the data model;
  * `SQLDatabase` methods (`src/server/database.ts`) become state
    transformers on an explicit `DB` value, each one wrapped in
    `SQLDatabase.withTransaction` exactly as in the source;
  * the PostgreSQL trigger `validate_payroll_data` and the SQL functions
    installed by `registerRoutes` (the untrimmed routes file) are embedded
    as functions on the same state;
  * the `POST /api/employees` handler of `src/server/routes.ts` is embedded
    as `postEmployees`.

Monetary columns are exact decimal values stored as strings; the code's
net-amount formula is purely additive, so we model an amount in fixed-point
micro-units (`Money := Int`, `1.00 = 1000000`), which is exact for every
computation the code performs on amounts.  Timestamps are opaque `Int`
values supplied as a `now` parameter.
-/

/-- A monetary amount in micro-units: `1000000` is `1.00`. -/
abbrev Money := Int

/-- Table `users` (schema.ts lines 5-15, DDL lines 33-45). -/
structure User where
  id : Nat
  username : String
  password : String
  firstName : String
  lastName : String
  email : String
  phone : Option String
  role : String
  createdAt : Int
deriving DecidableEq

/-- Table `departments` (schema.ts lines 17-21, DDL lines 48-54). -/
structure Department where
  id : Nat
  name : String
  description : Option String
deriving DecidableEq

/-- Table `employees` (schema.ts lines 23-36, DDL lines 57-72). -/
structure Employee where
  id : Nat
  userId : Option Nat
  departmentId : Option Nat
  position : String
  taxId : String
  taxStatus : String
  bankName : String
  accountNumber : String
  routingNumber : String
  baseSalary : Money
  joinDate : String
  status : String
deriving DecidableEq

/-- Table `payrolls` (schema.ts lines 38-52, DDL lines 75-91). -/
structure Payroll where
  id : Nat
  employeeId : Nat
  month : Int
  year : Int
  grossAmount : Money
  taxDeductions : Money
  otherDeductions : Option Money
  netAmount : Money
  bonuses : Option Money
  details : Option String
  status : String
  processedAt : Option Int
  processedBy : Option Nat
deriving DecidableEq

/-- The relational store: the four tables plus the serial-id counters. -/
structure DB where
  users : List User
  departments : List Department
  employees : List Employee
  payrolls : List Payroll
  nextUserId : Nat
  nextEmployeeId : Nat
  nextPayrollId : Nat
deriving DecidableEq

/-- The connection pool: the committed store plus the number of handles
currently checked out (`pool.connect()` / `client.release()`). -/
structure PoolState where
  db : DB
  acquired : Nat
deriving DecidableEq

/-- The errors the embedded store operations raise.  The first three match
the three `RAISE EXCEPTION` sites of the `validate_payroll_data` trigger;
the last two are the uniqueness and foreign-key constraints of the DDL. -/
inductive DbError where
  | invalidReference (employeeId : Nat)
  | outOfRange (field : String) (value : Int)
  | invalidAmount (message : String)
  | uniqueViolation (column : String)
  | fkViolation (column : String)
deriving DecidableEq

deriving instance DecidableEq for Except

/-- Method `SQLDatabase.withTransaction` (database.ts lines 138-152): acquire a
client, `BEGIN`, run the callback, `COMMIT` its effects on success, `ROLLBACK`
them and re-raise the original error on failure, and `finally` release the
client.  The callback is a deterministic state transformer: the `DB` it
returns on success is the state it committed.  The handle count rises by
one for the callback's duration and the unconditional release brings it
back down in both branches. -/
def SQLDatabase.withTransaction {ε α : Type} (work : DB → Except ε (DB × α))
    (s : PoolState) : PoolState × Except ε α :=
  match work s.db with
  | Except.ok (db2, a) => ({ db := db2, acquired := s.acquired + 1 - 1 }, Except.ok a)
  | Except.error e => ({ db := s.db, acquired := s.acquired + 1 - 1 }, Except.error e)

/-- The `validate_payroll_data` trigger function, installed by
`registerRoutes` as `BEFORE INSERT ON payrolls` (untrimmed routes file,
lines 91-139).  Checks, in source order: the referenced employee exists and
is `active`; `month` in [1,12]; `year` in [2000,2100]; `gross_amount > 0`;
then normalizes `processed_at` for `completed` rows.  (The `status IS NULL`
normalization of the source is unreachable here because the inserting code
always supplies a status, as does the `NOT NULL DEFAULT` column.) -/
def validate_payroll_data (db : DB) (now : Int) (new : Payroll) :
    Except DbError Payroll :=
  if ¬ db.employees.any (fun e => e.id == new.employeeId && e.status == "active") then
    Except.error (DbError.invalidReference new.employeeId)
  else if new.month < 1 ∨ 12 < new.month then
    Except.error (DbError.outOfRange "month" new.month)
  else if new.year < 2000 ∨ 2100 < new.year then
    Except.error (DbError.outOfRange "year" new.year)
  else if new.grossAmount ≤ 0 then
    Except.error (DbError.invalidAmount "Gross amount must be positive")
  else if new.status == "completed" && new.processedAt.isNone then
    Except.ok { new with processedAt := some now }
  else
    Except.ok new

/-- One row inserted into `payrolls`: the `BEFORE INSERT` trigger runs on
the new row (possibly normalizing it) and the validated row is appended. -/
def dbInsertPayrollRow (now : Int) (row : Payroll) (db : DB) :
    Except DbError (DB × Payroll) :=
  match validate_payroll_data db now row with
  | Except.error e => Except.error e
  | Except.ok row2 =>
      Except.ok ({ db with payrolls := db.payrolls ++ [row2],
                           nextPayrollId := db.nextPayrollId + 1 }, row2)

/-- The caller-supplied payroll record (`insertPayrollSchema`,
schema.ts lines 73-76).  `Option` marks columns the caller may omit;
a JavaScript-falsy `netAmount`/`status`/`processedAt` is modelled `none`. -/
structure InsertPayroll where
  employeeId : Nat
  month : Int
  year : Int
  grossAmount : Money
  taxDeductions : Money
  otherDeductions : Option Money
  bonuses : Option Money
  netAmount : Option Money
  details : Option String
  status : Option String
  processedAt : Option Int
  processedBy : Option Nat
deriving DecidableEq

/-- Row construction inside `SQLDatabase.createPayroll` (database.ts lines
850-892): compute the net amount only when the caller supplied none
(`if (!netAmount)`), defaulting absent deductions and bonuses to 0; a
caller-supplied `netAmount` is inserted verbatim.  `status` defaults to
`'pending'` and `processed_at` to `new Date()`. -/
def SQLDatabase.createPayrollRow (now : Int) (p : InsertPayroll) (db : DB) : Payroll :=
  let netAmount : Money :=
    match p.netAmount with
    | some n => n
    | none =>
        p.grossAmount - p.taxDeductions - p.otherDeductions.getD 0 + p.bonuses.getD 0
  { id := db.nextPayrollId
    employeeId := p.employeeId
    month := p.month
    year := p.year
    grossAmount := p.grossAmount
    taxDeductions := p.taxDeductions
    otherDeductions := p.otherDeductions
    netAmount := netAmount
    bonuses := p.bonuses
    details := p.details
    status := p.status.getD "pending"
    processedAt := some (p.processedAt.getD now)
    processedBy := p.processedBy }

/-- Insertion step of `SQLDatabase.createPayroll`: the built row goes
through the single `INSERT INTO payrolls`, firing the trigger. -/
def SQLDatabase.createPayrollTx (now : Int) (p : InsertPayroll) (db : DB) :
    Except DbError (DB × Payroll) :=
  dbInsertPayrollRow now (SQLDatabase.createPayrollRow now p db) db

/-- Method `SQLDatabase.createPayroll`: the transaction body run under
`withTransaction`, as in the source. -/
def SQLDatabase.createPayroll (now : Int) (p : InsertPayroll) (s : PoolState) :
    PoolState × Except DbError Payroll :=
  SQLDatabase.withTransaction (SQLDatabase.createPayrollTx now p) s

/-- A partial update for `SQLDatabase.updatePayroll`: only `some` fields are
added to the `SET` clause (database.ts lines 896-959). -/
structure PayrollPatch where
  employeeId : Option Nat := none
  month : Option Int := none
  year : Option Int := none
  grossAmount : Option Money := none
  taxDeductions : Option Money := none
  otherDeductions : Option Money := none
  netAmount : Option Money := none
  bonuses : Option Money := none
  details : Option String := none
  status : Option String := none
  processedAt : Option Int := none
  processedBy : Option Nat := none
deriving DecidableEq

/-- Merge a patch into a stored row: present fields overwrite, absent fields
keep the stored value — exactly the dynamically built `SET` clause. -/
def applyPayrollPatch (patch : PayrollPatch) (p : Payroll) : Payroll :=
  { p with
    employeeId := patch.employeeId.getD p.employeeId
    month := patch.month.getD p.month
    year := patch.year.getD p.year
    grossAmount := patch.grossAmount.getD p.grossAmount
    taxDeductions := patch.taxDeductions.getD p.taxDeductions
    otherDeductions :=
      match patch.otherDeductions with
      | some v => some v
      | none => p.otherDeductions
    netAmount := patch.netAmount.getD p.netAmount
    bonuses :=
      match patch.bonuses with
      | some v => some v
      | none => p.bonuses
    details :=
      match patch.details with
      | some v => some v
      | none => p.details
    status := patch.status.getD p.status
    processedAt :=
      match patch.processedAt with
      | some v => some v
      | none => p.processedAt
    processedBy :=
      match patch.processedBy with
      | some v => some v
      | none => p.processedBy }

/-- Transaction body of `SQLDatabase.updatePayroll` (database.ts lines
894-980): `UPDATE payrolls SET <supplied fields> WHERE id = $n`, returning
the updated row, or `none` when no row has the id.  No net-amount
recomputation happens, and no trigger runs — the only payroll trigger is
`validate_payroll_before_insert`, a `BEFORE INSERT` trigger.  (The source's
early return for an empty patch coincides with applying an empty patch.) -/
def SQLDatabase.updatePayrollTx (id : Nat) (patch : PayrollPatch) (db : DB) :
    Except DbError (DB × Option Payroll) :=
  Except.ok
    ({ db with payrolls :=
        db.payrolls.map (fun r => if r.id == id then applyPayrollPatch patch r else r) },
     (db.payrolls.find? (fun r => r.id == id)).map (applyPayrollPatch patch))

/-- Method `SQLDatabase.updatePayroll`: the transaction body under `withTransaction`. -/
def SQLDatabase.updatePayroll (id : Nat) (patch : PayrollPatch) (s : PoolState) :
    PoolState × Except DbError (Option Payroll) :=
  SQLDatabase.withTransaction (SQLDatabase.updatePayrollTx id patch) s

/-- Transaction body of `SQLDatabase.deletePayroll` (database.ts lines
982-991): `DELETE FROM payrolls WHERE id = $1`, returning `rowCount > 0`. -/
def SQLDatabase.deletePayrollTx (id : Nat) (db : DB) :
    Except DbError (DB × Bool) :=
  Except.ok ({ db with payrolls := db.payrolls.filter (fun r => ! (r.id == id)) },
             db.payrolls.any (fun r => r.id == id))

/-- Method `SQLDatabase.deletePayroll`: the transaction body under `withTransaction`. -/
def SQLDatabase.deletePayroll (id : Nat) (s : PoolState) :
    PoolState × Except DbError Bool :=
  SQLDatabase.withTransaction (SQLDatabase.deletePayrollTx id) s

/-- Transaction body of `SQLDatabase.deleteEmployee` (database.ts lines
616-632): first `DELETE FROM payrolls WHERE employee_id = $1`, then
`DELETE FROM employees WHERE id = $1`, returning whether an employee row
was removed.  Users are not touched. -/
def SQLDatabase.deleteEmployeeTx (id : Nat) (db : DB) :
    Except DbError (DB × Bool) :=
  let db1 : DB := { db with payrolls := db.payrolls.filter (fun r => ! (r.employeeId == id)) }
  Except.ok ({ db1 with employees := db1.employees.filter (fun e => ! (e.id == id)) },
             db.employees.any (fun e => e.id == id))

/-- Method `SQLDatabase.deleteEmployee`: the transaction body under `withTransaction`. -/
def SQLDatabase.deleteEmployee (id : Nat) (s : PoolState) :
    PoolState × Except DbError Bool :=
  SQLDatabase.withTransaction (SQLDatabase.deleteEmployeeTx id) s

/-- The stored-record consistency the specification requires of every
payroll write: the net amount equals gross minus tax and other deductions
plus bonuses, absent deductions and bonuses counting as zero. -/
def netConsistent (p : Payroll) : Prop :=
  p.netAmount = p.grossAmount - p.taxDeductions - p.otherDeductions.getD 0 + p.bonuses.getD 0

instance (p : Payroll) : Decidable (netConsistent p) :=
  inferInstanceAs (Decidable (p.netAmount = _))

/-- Modelled from the spec: "rounding half-up to 2 decimal places" — round a
micro-unit amount to the nearest multiple of a hundredth (`10000` micro),
halves upward.  The source performs no such step; this definition exists
only to compare the spec's words with the code. -/
def specRoundHalfUp2 (m : Money) : Money := ((m + 5000).fdiv 10000) * 10000

/-- The caller-supplied user record (`insertUserSchema`). -/
structure InsertUser where
  username : String
  password : String
  firstName : String
  lastName : String
  email : String
  phone : Option String
  role : Option String
deriving DecidableEq

/-- Transaction body of `SQLDatabase.createUser` (database.ts lines
188-207): insert the row, `role` defaulting to `'employee'`.  The DDL's
`UNIQUE` constraint on `username` (line 36) makes a duplicate username an
error; the creation timestamp is irrelevant here and kept at `0`. -/
def SQLDatabase.createUserTx (u : InsertUser) (db : DB) :
    Except DbError (DB × User) :=
  if db.users.any (fun x => x.username == u.username) then
    Except.error (DbError.uniqueViolation "username")
  else
    let row : User :=
      { id := db.nextUserId
        username := u.username
        password := u.password
        firstName := u.firstName
        lastName := u.lastName
        email := u.email
        phone := u.phone
        role := u.role.getD "employee"
        createdAt := 0 }
    Except.ok ({ db with users := db.users ++ [row], nextUserId := db.nextUserId + 1 }, row)

/-- Method `SQLDatabase.createUser`: the transaction body under its own
`withTransaction`, exactly as in the source — the user row is committed
once this method returns. -/
def SQLDatabase.createUser (u : InsertUser) (s : PoolState) :
    PoolState × Except DbError User :=
  SQLDatabase.withTransaction (SQLDatabase.createUserTx u) s

/-- The caller-supplied employee record (`insertEmployeeSchema`). -/
structure InsertEmployee where
  userId : Option Nat
  departmentId : Option Nat
  position : String
  taxId : String
  taxStatus : String
  bankName : String
  accountNumber : String
  routingNumber : String
  baseSalary : Money
  joinDate : String
  status : Option String
deriving DecidableEq

/-- A nullable foreign-key reference is satisfied when absent or when the
referenced id exists. -/
def fkOk (ref : Option Nat) (ids : List Nat) : Bool :=
  match ref with
  | none => true
  | some r => ids.any (fun i => i == r)

/-- Transaction body of `SQLDatabase.createEmployee` (database.ts lines
504-532): insert the row, `status` defaulting to `'active'`.  The DDL's
`REFERENCES users(id)` and `REFERENCES departments(id)` (lines 60-61) make
a dangling reference an insert error. -/
def SQLDatabase.createEmployeeTx (emp : InsertEmployee) (db : DB) :
    Except DbError (DB × Employee) :=
  if ¬ fkOk emp.userId (db.users.map (fun u => u.id)) then
    Except.error (DbError.fkViolation "user_id")
  else if ¬ fkOk emp.departmentId (db.departments.map (fun d => d.id)) then
    Except.error (DbError.fkViolation "department_id")
  else
    let row : Employee :=
      { id := db.nextEmployeeId
        userId := emp.userId
        departmentId := emp.departmentId
        position := emp.position
        taxId := emp.taxId
        taxStatus := emp.taxStatus
        bankName := emp.bankName
        accountNumber := emp.accountNumber
        routingNumber := emp.routingNumber
        baseSalary := emp.baseSalary
        joinDate := emp.joinDate
        status := emp.status.getD "active" }
    Except.ok ({ db with employees := db.employees ++ [row],
                         nextEmployeeId := db.nextEmployeeId + 1 }, row)

/-- Method `SQLDatabase.createEmployee`: the transaction body under its own
`withTransaction` — a transaction separate from any other method's. -/
def SQLDatabase.createEmployee (emp : InsertEmployee) (s : PoolState) :
    PoolState × Except DbError Employee :=
  SQLDatabase.withTransaction (SQLDatabase.createEmployeeTx emp) s

/-- The request body of `POST /api/employees` (routes.ts lines 170-216). -/
structure EmployeeRequest where
  isNewUser : Bool
  userId : Option Nat
  firstName : String
  lastName : String
  email : String
  phone : Option String
  departmentId : Option Nat
  position : String
  taxId : String
  taxStatus : String
  bankName : String
  accountNumber : String
  routingNumber : String
  baseSalary : Money
  joinDate : String
  status : Option String
deriving DecidableEq

/-- The bcrypt hash is irrelevant to the state we reason about; it is kept
as an opaque tagging of the password text. -/
def hashPassword (password : String) : String := "bcrypt$" ++ password

/-- What the `POST /api/employees` handler sends back: `201` with the
created employee, or `400` with the caught error's message. -/
inductive RouteResponse where
  | created (employee : Employee)
  | badRequest (e : DbError)
deriving DecidableEq

/-- The `POST /api/employees` handler (routes.ts lines 170-216).  When
`isNewUser` is set and no `userId` is given it first calls
`database.createUser` — which commits in its own transaction — and then
calls `database.createEmployee`, which runs in a second, separate
transaction.  Any thrown error is caught and answered with `400`.  The
route-level `withTransaction` wrapper (routes.ts lines 16-24) opens no
transaction: despite its comment "Define withTransaction using
database.withTransaction", it only forwards errors to `next`, so it adds
nothing to the state semantics modelled here. -/
def postEmployees (req : EmployeeRequest) (s : PoolState) :
    PoolState × RouteResponse :=
  let step1 : PoolState × Except DbError (Option Nat) :=
    if req.isNewUser && req.userId.isNone then
      match SQLDatabase.createUser
          { username := req.firstName.toLower ++ "." ++ req.lastName.toLower
            password := hashPassword (req.lastName.toLower ++ "123")
            firstName := req.firstName
            lastName := req.lastName
            email := req.email
            phone := req.phone
            role := some "employee" } s with
      | (s1, Except.ok u) => (s1, Except.ok (some u.id))
      | (s1, Except.error e) => (s1, Except.error e)
    else
      (s, Except.ok req.userId)
  match step1 with
  | (s1, Except.error e) => (s1, RouteResponse.badRequest e)
  | (s1, Except.ok uid) =>
      match SQLDatabase.createEmployee
          { userId := uid
            departmentId := req.departmentId
            position := req.position
            taxId := req.taxId
            taxStatus := req.taxStatus
            bankName := req.bankName
            accountNumber := req.accountNumber
            routingNumber := req.routingNumber
            baseSalary := req.baseSalary
            joinDate := req.joinDate
            status := req.status } s1 with
      | (s2, Except.ok emp) => (s2, RouteResponse.created emp)
      | (s2, Except.error e) => (s2, RouteResponse.badRequest e)

/-- Modelled from the spec: the PostgreSQL function
`process_monthly_payroll` called by `SQLDatabase.processMonthlyPayroll`
(database.ts lines 1193-1208) is not among the repository sources — only
its caller is.  Per spec section 4.5 the bulk run inserts one payroll row
per eligible employee, and each insert into `payrolls` passes through the
same `BEFORE INSERT` trigger `validate_payroll_data` as a single-record
create; a validation failure aborts the batch.  `rows` are the per-employee
row templates; ids are assigned from the serial counter at insert time. -/
def processMonthlyBatch (now : Int) (rows : List Payroll) (db : DB) :
    Except DbError DB :=
  match rows with
  | [] => Except.ok db
  | r :: rest =>
      match dbInsertPayrollRow now { r with id := db.nextPayrollId } db with
      | Except.error e => Except.error e
      | Except.ok (db2, _) => processMonthlyBatch now rest db2

/-- Modelled from the spec: the bulk monthly run commits as one transaction
(database.ts lines 1193-1208 wrap the call in `withTransaction`). -/
def SQLDatabase.processMonthlyPayroll (now : Int) (rows : List Payroll) (s : PoolState) :
    PoolState × Except DbError Unit :=
  SQLDatabase.withTransaction
    (fun db =>
      match processMonthlyBatch now rows db with
      | Except.error e => Except.error e
      | Except.ok db2 => Except.ok (db2, ())) s

/-- The active employees, as selected by `WHERE status = 'active'`. -/
def activeEmployees (db : DB) : List Employee :=
  db.employees.filter (fun e => e.status == "active")

/-- The rows of the `getDepartmentDistribution` join (database.ts lines
1073-1080): one `(department_id, name)` row per active employee whose
`department_id` is set and matches a department.  `find?` picks the unique
department with that primary key. -/
def deptJoinRows (db : DB) : List (Nat × String) :=
  (activeEmployees db).filterMap (fun e =>
    match e.departmentId with
    | none => none
    | some d => (db.departments.find? (fun dd => dd.id == d)).map (fun dd => (d, dd.name)))

/-- Semantics of `GROUP BY key` with `COUNT(*)`: one entry per distinct
key, in first appearance order, counting its occurrences.  The recursion
is structural over a fuel bounded by the list length, so the function
evaluates inside the kernel. -/
def groupCountsAux {α : Type} [BEq α] : Nat → List α → List (α × Nat)
  | _, [] => []
  | 0, _ :: _ => []
  | fuel + 1, a :: l =>
      (a, 1 + (l.filter (fun x => x == a)).length) ::
        groupCountsAux fuel (l.filter (fun x => ! (x == a)))

/-- Grouping with enough fuel for the whole list. -/
def groupCounts {α : Type} [BEq α] (l : List α) : List (α × Nat) :=
  groupCountsAux l.length l

/-- Ordering `ORDER BY count DESC` compares grouped rows by their count, larger
first. -/
def countGE (a b : (Nat × String) × Nat) : Prop := b.2 ≤ a.2

instance : DecidableRel countGE := fun a b => inferInstanceAs (Decidable (b.2 ≤ a.2))

instance : IsTotal ((Nat × String) × Nat) countGE :=
  ⟨fun a b => (Nat.le_total a.2 b.2).symm.imp id id⟩

instance : IsTrans ((Nat × String) × Nat) countGE :=
  ⟨fun _ _ _ h1 h2 => Nat.le_trans h2 h1⟩

/-- One entry of the department distribution result. -/
structure DeptSlice where
  id : Nat
  name : String
  count : Nat
  percentage : Int
deriving DecidableEq

/-- Rounding `Math.round(x)` on an exact non-negative ratio: the integer nearest to
`(100 * count) / total`, halves upward — computed on integers as
`⌊(200 * count + total) / (2 * total)⌋`. -/
def jsRoundPct (count total : Nat) : Int :=
  Int.fdiv (200 * count + total) (2 * total)

/-- Method `SQLDatabase.getDepartmentDistribution` (database.ts lines 1070-1097):
group the active employees by joined department, order by count descending,
and attach `Math.round((count / total) * 100)` where `total` counts all
active employees (department-less ones included); `0` when `total` is `0`.
The source wraps these reads in a transaction that cannot fail; the
returned value is modelled directly. -/
def SQLDatabase.getDepartmentDistribution (db : DB) : List DeptSlice :=
  (List.insertionSort countGE (groupCounts (deptJoinRows db))).map (fun g =>
    { id := g.1.1
      name := g.1.2
      count := g.2
      percentage :=
        if 0 < (activeEmployees db).length then
          jsRoundPct g.2 (activeEmployees db).length
        else 0 })

/-! Concrete store states and requests used by the closed theorems below.
Amounts are in micro-units: `5000000000` is `5000.00`. -/

/-- An active employee with no department link. -/
def emp1 : Employee :=
  { id := 1
    userId := none
    departmentId := none
    position := "Developer"
    taxId := "TAX-1"
    taxStatus := "single"
    bankName := "Bank"
    accountNumber := "0001"
    routingNumber := "9001"
    baseSalary := 5000000000
    joinDate := "2024-01-01"
    status := "active" }

/-- A store with a single active employee and nothing else. -/
def dbOneActive : DB :=
  { users := []
    departments := []
    employees := [emp1]
    payrolls := []
    nextUserId := 1
    nextEmployeeId := 2
    nextPayrollId := 1 }

/-- An entirely empty store. -/
def dbEmpty : DB :=
  { users := []
    departments := []
    employees := []
    payrolls := []
    nextUserId := 1
    nextEmployeeId := 1
    nextPayrollId := 1 }

/-- A stored payroll row whose net amount is consistent:
`100.00 − 10.00 − 0 + 0 = 90.00`. -/
def payroll90 : Payroll :=
  { id := 1
    employeeId := 1
    month := 6
    year := 2024
    grossAmount := 100000000
    taxDeductions := 10000000
    otherDeductions := none
    netAmount := 90000000
    bonuses := none
    details := none
    status := "pending"
    processedAt := some 0
    processedBy := none }

/-- The single-active-employee store holding `payroll90`. -/
def dbWithPayroll90 : DB :=
  { dbOneActive with payrolls := [payroll90], nextPayrollId := 2 }

/-- The specification's test scenario: gross 5000.00, tax 750.00,
other 0, bonuses 200.00, no caller-supplied net amount. -/
def insertP5000 : InsertPayroll :=
  { employeeId := 1
    month := 6
    year := 2024
    grossAmount := 5000000000
    taxDeductions := 750000000
    otherDeductions := some 0
    bonuses := some 200000000
    netAmount := none
    details := none
    status := none
    processedAt := none
    processedBy := none }

/-- The row `createPayroll 0 insertP5000` stores: net 4450.00, status
`pending`, a processing timestamp despite the pending status. -/
def payroll4450 : Payroll :=
  { id := 1
    employeeId := 1
    month := 6
    year := 2024
    grossAmount := 5000000000
    taxDeductions := 750000000
    otherDeductions := some 0
    netAmount := 4450000000
    bonuses := some 200000000
    details := none
    status := "pending"
    processedAt := some 0
    processedBy := none }

/-- A create input whose exact net amount, 100.005, needs three fraction
digits: gross 100.005, no deductions or bonuses. -/
def insertP100005 : InsertPayroll :=
  { employeeId := 1
    month := 6
    year := 2024
    grossAmount := 100005000
    taxDeductions := 0
    otherDeductions := none
    bonuses := none
    netAmount := none
    details := none
    status := none
    processedAt := none
    processedBy := none }

/-- The row stored for `insertP100005`: the unrounded 100.005. -/
def payroll100005 : Payroll :=
  { id := 1
    employeeId := 1
    month := 6
    year := 2024
    grossAmount := 100005000
    taxDeductions := 0
    otherDeductions := none
    netAmount := 100005000
    bonuses := none
    details := none
    status := "pending"
    processedAt := some 0
    processedBy := none }

/-- A create input with a negative tax deduction of −50.00. -/
def insertPNegTax : InsertPayroll :=
  { employeeId := 1
    month := 6
    year := 2024
    grossAmount := 1000000000
    taxDeductions := -50000000
    otherDeductions := none
    bonuses := none
    netAmount := none
    details := none
    status := none
    processedAt := none
    processedBy := none }

/-- The row stored for `insertPNegTax`: the negative deduction is kept and
even raises the net amount to 1050.00. -/
def payrollNegTax : Payroll :=
  { id := 1
    employeeId := 1
    month := 6
    year := 2024
    grossAmount := 1000000000
    taxDeductions := -50000000
    otherDeductions := none
    netAmount := 1050000000
    bonuses := none
    details := none
    status := "pending"
    processedAt := some 0
    processedBy := none }

/-- An employee-creation request asking for a new user, whose employee row
references department 5 — a department that does not exist, so the employee
insert fails after the user insert committed. -/
def reqNewUserBadDept : EmployeeRequest :=
  { isNewUser := true
    userId := none
    firstName := "John"
    lastName := "Doe"
    email := "john.doe@example.com"
    phone := none
    departmentId := some 5
    position := "Developer"
    taxId := "TAX-2"
    taxStatus := "single"
    bankName := "Bank"
    accountNumber := "0002"
    routingNumber := "9002"
    baseSalary := 5000000000
    joinDate := "2024-01-01"
    status := none }

/-- Department used by the distribution example. -/
def dept1 : Department := { id := 1, name := "IT", description := none }

/-- An active employee assigned to `dept1`. -/
def emp2 : Employee := { emp1 with id := 2, departmentId := some 1 }

/-- A store whose only active employee belongs to the IT department. -/
def dbDist : DB :=
  { users := []
    departments := [dept1]
    employees := [emp2]
    payrolls := []
    nextUserId := 1
    nextEmployeeId := 3
    nextPayrollId := 1 }

/-- Truth of "this active employee is assigned to an existing department"
— the employees the `getDepartmentDistribution` join can see. -/
def hasDepartment (db : DB) (e : Employee) : Bool :=
  match e.departmentId with
  | none => false
  | some d => db.departments.any (fun dd => dd.id == d)


/-! Helper lemmas shared by the claim theorems. -/

/-- Splitting a list's length by a Boolean predicate. -/
theorem length_filter_add_length_filter_not {α : Type} (l : List α) (p : α → Bool) :
    (l.filter p).length + (l.filter (fun x => ! p x)).length = l.length := by
  induction l with
  | nil => rfl
  | cons a l ih => cases h : p a <;> (simp [List.filter_cons, h]; omega)

/-- After removing the matches of a predicate, none are left. -/
theorem filter_of_filter_not_eq_nil {α : Type} (l : List α) (p : α → Bool) :
    (l.filter (fun x => ! p x)).filter p = [] := by
  induction l with
  | nil => rfl
  | cons a l ih => cases h : p a <;> simp [List.filter_cons, h, ih]

/-- After removing the matches of a predicate, `any` no longer finds one. -/
theorem any_of_filter_not_eq_false {α : Type} (l : List α) (p : α → Bool) :
    (l.filter (fun x => ! p x)).any p = false := by
  induction l with
  | nil => rfl
  | cons a l ih => cases h : p a <;> simp [List.filter_cons, h, ih]

/-- Filtering twice with the same predicate filters once. -/
theorem filter_idem {α : Type} (l : List α) (p : α → Bool) :
    (l.filter p).filter p = l.filter p := by
  induction l with
  | nil => rfl
  | cons a l ih => cases h : p a <;> simp [List.filter_cons, h, ih]

/-- A validated insert row is the incoming row, except that the trigger may
stamp `processed_at` on a `completed` row; the checks never alter months,
years or any amount field. -/
theorem validate_payroll_data_ok_cases (db : DB) (now : Int) (new row2 : Payroll)
    (h : validate_payroll_data db now new = Except.ok row2) :
    row2 = new ∨ row2 = { new with processedAt := some now } := by
  unfold validate_payroll_data at h
  split_ifs at h <;>
    first
      | exact Except.noConfusion h
      | (injection h with h2; exact Or.inl h2.symm)
      | (injection h with h2; exact Or.inr h2.symm)

/-- Success inversion for `withTransaction`: a committed result comes from
the callback succeeding on the pre-call store. -/
theorem withTransaction_ok_inv {ε α : Type} {work : DB → Except ε (DB × α)}
    {s s' : PoolState} {a : α}
    (h : SQLDatabase.withTransaction work s = (s', Except.ok a)) :
    ∃ db2, work s.db = Except.ok (db2, a) ∧ s'.db = db2 := by
  revert h
  unfold SQLDatabase.withTransaction
  cases hw : work s.db with
  | ok p =>
      obtain ⟨db2, b⟩ := p
      intro h
      simp only [Prod.mk.injEq, Except.ok.injEq] at h
      refine ⟨db2, ?_, ?_⟩
      · rw [h.2]
      · rw [← h.1]
  | error e =>
      intro h
      simp only [Prod.mk.injEq] at h
      exact absurd h.2 (by simp)

/-- C3: `withTransaction(work)` releases its handle in every outcome
(the checked-out count returns to its pre-call value), commits exactly the
callback's resulting state and returns its value when the callback
succeeds, and when the callback fails leaves the committed store unchanged
while propagating the original error unchanged. -/
theorem withTransaction_atomic_releases_handle (ε α : Type)
    (work : DB → Except ε (DB × α)) (s : PoolState) :
    ((SQLDatabase.withTransaction work s).1.acquired = s.acquired) ∧
    (∀ (db2 : DB) (a : α), work s.db = Except.ok (db2, a) →
        SQLDatabase.withTransaction work s
          = ({ db := db2, acquired := s.acquired }, Except.ok a)) ∧
    (∀ e : ε, work s.db = Except.error e →
        SQLDatabase.withTransaction work s
          = ({ db := s.db, acquired := s.acquired }, Except.error e)) := by
  refine ⟨?_, ?_, ?_⟩
  · unfold SQLDatabase.withTransaction
    cases h : work s.db with
    | ok p =>
        obtain ⟨db2, a⟩ := p
        simp
    | error e => simp
  · intro db2 a h
    unfold SQLDatabase.withTransaction
    simp [h]
  · intro e h
    unfold SQLDatabase.withTransaction
    simp [h]

/-- Witness for C3 at a concrete callback and pool state. -/
theorem withTransaction_atomic_releases_handle_witness :
    SQLDatabase.withTransaction
        (fun db => (Except.ok (db, 42) : Except DbError (DB × Nat)))
        { db := dbEmpty, acquired := 0 }
      = ({ db := dbEmpty, acquired := 0 }, Except.ok 42) :=
  (withTransaction_atomic_releases_handle DbError Nat
    (fun db => Except.ok (db, 42)) { db := dbEmpty, acquired := 0 }).2.1 dbEmpty 42 rfl

/-- C7: `deleteEmployee` removes every payroll row of the employee and the
employee row itself, inside the one transaction, and touches nothing else:
afterwards no payroll for that employee and no such employee remain, the
users table is unchanged, and the method reports whether an employee row
was removed. -/
theorem deleteEmployee_cascade_preserves_users (id : Nat) (s : PoolState) :
    ((SQLDatabase.deleteEmployee id s).1.db.payrolls.filter
        (fun r => r.employeeId == id)) = [] ∧
    ((SQLDatabase.deleteEmployee id s).1.db.employees.filter
        (fun e => e.id == id)) = [] ∧
    (SQLDatabase.deleteEmployee id s).1.db.users = s.db.users ∧
    (SQLDatabase.deleteEmployee id s).1.db.payrolls
      = s.db.payrolls.filter (fun r => ! (r.employeeId == id)) ∧
    (SQLDatabase.deleteEmployee id s).1.db.employees
      = s.db.employees.filter (fun e => ! (e.id == id)) ∧
    (SQLDatabase.deleteEmployee id s).2
      = Except.ok (s.db.employees.any (fun e => e.id == id)) := by
  refine ⟨?_, ?_, rfl, rfl, rfl, rfl⟩
  · exact filter_of_filter_not_eq_nil s.db.payrolls (fun r => r.employeeId == id)
  · exact filter_of_filter_not_eq_nil s.db.employees (fun e => e.id == id)

/-- C8: `deletePayroll` reports whether a row with the id existed; deleting
again (or deleting an id that never existed) raises no error, reports that
nothing was removed, and leaves the store exactly as it was. -/
theorem deletePayroll_idempotent_reports (id : Nat) (s : PoolState) :
    (SQLDatabase.deletePayroll id s).2
      = Except.ok (s.db.payrolls.any (fun r => r.id == id)) ∧
    (SQLDatabase.deletePayroll id (SQLDatabase.deletePayroll id s).1).2
      = Except.ok false ∧
    (SQLDatabase.deletePayroll id (SQLDatabase.deletePayroll id s).1).1.db
      = (SQLDatabase.deletePayroll id s).1.db ∧
    (s.db.payrolls.any (fun r => r.id == id) = false →
      (SQLDatabase.deletePayroll id s).1.db = s.db) := by
  refine ⟨rfl, ?_, ?_, ?_⟩
  · simp only [SQLDatabase.deletePayroll, SQLDatabase.withTransaction,
      SQLDatabase.deletePayrollTx]
    rw [any_of_filter_not_eq_false]
  · simp only [SQLDatabase.deletePayroll, SQLDatabase.withTransaction,
      SQLDatabase.deletePayrollTx]
    rw [filter_idem]
  · intro h
    simp only [SQLDatabase.deletePayroll, SQLDatabase.withTransaction,
      SQLDatabase.deletePayrollTx]
    have h2 : s.db.payrolls.filter (fun r => ! (r.id == id)) = s.db.payrolls :=
      List.filter_eq_self.mpr (fun a ha => by
        have h3 := List.any_eq_false.mp h a ha
        simpa using h3)
    rw [h2]

/-- Witness for C8: on the empty store, deleting payroll 1 changes nothing
and raises no error. -/
theorem deletePayroll_idempotent_reports_witness :
    (SQLDatabase.deletePayroll 1 { db := dbEmpty, acquired := 0 }).1.db = dbEmpty :=
  (deletePayroll_idempotent_reports 1 { db := dbEmpty, acquired := 0 }).2.2.2 (by decide)

/-- C10: every successful `createPayroll` stores a row whose `processedAt`
is non-null; when the caller supplied no timestamp the stored value is the
current time, whatever the status — including rows created as `pending`. -/
theorem createPayroll_stamps_processedAt (now : Int) (p : InsertPayroll)
    (s s' : PoolState) (row : Payroll)
    (h : SQLDatabase.createPayroll now p s = (s', Except.ok row)) :
    row.processedAt.isSome = true ∧
    (p.processedAt = none → row.processedAt = some now) ∧
    s'.db.payrolls = s.db.payrolls ++ [row] := by
  have h' : SQLDatabase.withTransaction (SQLDatabase.createPayrollTx now p) s
      = (s', Except.ok row) := h
  obtain ⟨db2, hw, hdb⟩ := withTransaction_ok_inv h'
  unfold SQLDatabase.createPayrollTx dbInsertPayrollRow at hw
  revert hw
  cases hv : validate_payroll_data s.db now (SQLDatabase.createPayrollRow now p s.db) with
  | error e => intro hw; exact Except.noConfusion hw
  | ok row2 =>
      intro hw
      simp only [Except.ok.injEq, Prod.mk.injEq] at hw
      obtain ⟨hw1, hw2⟩ := hw
      have hcases := validate_payroll_data_ok_cases _ _ _ _ hv
      subst hw2
      refine ⟨?_, ?_, ?_⟩
      · rcases hcases with hcase | hcase <;> rw [hcase] <;>
          simp [SQLDatabase.createPayrollRow]
      · intro hp
        rcases hcases with hcase | hcase <;> rw [hcase] <;>
          simp [SQLDatabase.createPayrollRow, hp]
      · rw [hdb, ← hw1]

/-- Witness for C10: the scenario payroll, created as `pending`, still
carries the processing timestamp. -/
theorem createPayroll_stamps_processedAt_witness :
    payroll4450.processedAt = some 0 :=
  (createPayroll_stamps_processedAt 0 insertP5000 { db := dbOneActive, acquired := 0 }
    { db := { dbOneActive with payrolls := [payroll4450], nextPayrollId := 2 },
      acquired := 0 }
    payroll4450 (by decide)).2.1 rfl

/-- Inversion for a successful `createPayroll`: the stored row is the built
row, possibly with the trigger's `processed_at` stamp, and it is appended
to the committed store. -/
theorem createPayroll_ok_inv {now : Int} {p : InsertPayroll} {s s' : PoolState}
    {row : Payroll}
    (h : SQLDatabase.createPayroll now p s = (s', Except.ok row)) :
    (row = SQLDatabase.createPayrollRow now p s.db ∨
      row = { SQLDatabase.createPayrollRow now p s.db with processedAt := some now }) ∧
    s'.db.payrolls = s.db.payrolls ++ [row] := by
  have h' : SQLDatabase.withTransaction (SQLDatabase.createPayrollTx now p) s
      = (s', Except.ok row) := h
  obtain ⟨db2, hw, hdb⟩ := withTransaction_ok_inv h'
  unfold SQLDatabase.createPayrollTx dbInsertPayrollRow at hw
  revert hw
  cases hv : validate_payroll_data s.db now (SQLDatabase.createPayrollRow now p s.db) with
  | error e => intro hw; exact Except.noConfusion hw
  | ok row2 =>
      intro hw
      simp only [Except.ok.injEq, Prod.mk.injEq] at hw
      obtain ⟨hw1, hw2⟩ := hw
      have hcases := validate_payroll_data_ok_cases _ _ _ _ hv
      subst hw2
      exact ⟨hcases, by rw [hdb, ← hw1]⟩

/-- The trigger accepts any row whose employee is active, month and year in
range and gross amount positive — no other field is examined, beyond the
`processed_at` stamp for `completed` rows. -/
theorem validate_payroll_data_ok_of (db : DB) (now : Int) (row : Payroll)
    (hemp : db.employees.any (fun e => e.id == row.employeeId && e.status == "active") = true)
    (hm1 : 1 ≤ row.month) (hm2 : row.month ≤ 12)
    (hy1 : 2000 ≤ row.year) (hy2 : row.year ≤ 2100)
    (hg : 0 < row.grossAmount) :
    validate_payroll_data db now row = Except.ok row ∨
    validate_payroll_data db now row = Except.ok { row with processedAt := some now } := by
  unfold validate_payroll_data
  have h1 : ¬ ¬ ((db.employees.any fun e => e.id == row.employeeId && e.status == "active")
      = true) := fun hn => hn hemp
  have h2 : ¬ (row.month < 1 ∨ 12 < row.month) := by omega
  have h3 : ¬ (row.year < 2000 ∨ 2100 < row.year) := by omega
  have h4 : ¬ (row.grossAmount ≤ 0) := not_le.mpr hg
  rw [if_neg h1, if_neg h2, if_neg h3, if_neg h4]
  by_cases h5 : (row.status == "completed" && row.processedAt.isNone) = true
  · rw [if_pos h5]
    right
    rfl
  · rw [if_neg h5]
    left
    rfl

/-- Computation of `createPayroll`'s returned value from the trigger's
verdict on the built row. -/
theorem createPayroll_snd_eq (now : Int) (p : InsertPayroll) (s : PoolState)
    (row2 : Payroll)
    (hv : validate_payroll_data s.db now (SQLDatabase.createPayrollRow now p s.db)
      = Except.ok row2) :
    (SQLDatabase.createPayroll now p s).2 = Except.ok row2 := by
  unfold SQLDatabase.createPayroll SQLDatabase.withTransaction
    SQLDatabase.createPayrollTx dbInsertPayrollRow
  rw [hv]

/-- C1 (amended): the net-amount consistency invariant holds after
`createPayroll` exactly on the path where the caller supplies no
`netAmount` — the code then computes the formula over the inserted fields.
A caller-supplied `netAmount` is stored verbatim on create, and
`updatePayroll` never recomputes: when the patch carries no `netAmount`
every stored row keeps its previous `netAmount`, even when the patch
changes `grossAmount`, `taxDeductions`, `otherDeductions` or `bonuses`. -/
theorem payroll_net_consistency_on_computed_paths :
    (∀ (now : Int) (p : InsertPayroll) (s s' : PoolState) (row : Payroll),
        p.netAmount = none →
        SQLDatabase.createPayroll now p s = (s', Except.ok row) →
        netConsistent row) ∧
    (∀ (id : Nat) (patch : PayrollPatch) (s : PoolState),
        patch.netAmount = none →
        (SQLDatabase.updatePayroll id patch s).1.db.payrolls.map (fun r => r.netAmount)
          = s.db.payrolls.map (fun r => r.netAmount)) := by
  constructor
  · intro now p s s' row hnet h
    obtain ⟨hcases, -⟩ := createPayroll_ok_inv h
    rcases hcases with hcase | hcase <;> rw [hcase] <;>
      simp [netConsistent, SQLDatabase.createPayrollRow, hnet]
  · intro id patch s hp
    simp only [SQLDatabase.updatePayroll, SQLDatabase.withTransaction,
      SQLDatabase.updatePayrollTx]
    rw [List.map_map]
    apply List.map_congr_left
    intro r _
    by_cases hid : r.id = id <;>
      simp [hid, applyPayrollPatch, hp]

/-- Witness for C1 (amended): the scenario create stores a consistent row. -/
theorem payroll_net_consistency_on_computed_paths_witness :
    netConsistent payroll4450 :=
  payroll_net_consistency_on_computed_paths.1 0 insertP5000
    { db := dbOneActive, acquired := 0 }
    { db := { dbOneActive with payrolls := [payroll4450], nextPayrollId := 2 },
      acquired := 0 }
    payroll4450 rfl (by decide)

/-- C1 counterexample: updating `payroll90`'s gross amount to 200.00
without supplying a net amount persists the stale net amount 90.00 — the
record stored after an update that changes an amount field violates the
claimed consistency equation. -/
theorem updatePayroll_stores_inconsistent_net :
    (SQLDatabase.updatePayroll 1 { grossAmount := some 200000000 }
        { db := dbWithPayroll90, acquired := 0 }).1.db.payrolls
      = [{ payroll90 with grossAmount := 200000000 }] ∧
    ¬ netConsistent { payroll90 with grossAmount := 200000000 } := by
  constructor
  · decide
  · decide

/-- C2 (amended): when no `netAmount` is supplied the stored net amount is
exactly `gross − tax − other + bonuses` (absent values as 0), with no
rounding step of any kind; on the specification's instance
5000.00 − 750.00 − 0 + 200.00 the exact value 4450.00 is stored. -/
theorem createPayroll_net_is_exact_formula (now : Int) (p : InsertPayroll)
    (s s' : PoolState) (row : Payroll)
    (hnet : p.netAmount = none)
    (h : SQLDatabase.createPayroll now p s = (s', Except.ok row)) :
    row.netAmount = p.grossAmount - p.taxDeductions
      - p.otherDeductions.getD 0 + p.bonuses.getD 0 := by
  obtain ⟨hcases, -⟩ := createPayroll_ok_inv h
  rcases hcases with hcase | hcase <;> rw [hcase] <;>
    simp [SQLDatabase.createPayrollRow, hnet]

/-- Witness for C2 (amended): the scenario create stores net 4450.00. -/
theorem createPayroll_net_is_exact_formula_witness :
    payroll4450.netAmount
      = insertP5000.grossAmount - insertP5000.taxDeductions
        - insertP5000.otherDeductions.getD 0 + insertP5000.bonuses.getD 0 :=
  createPayroll_net_is_exact_formula 0 insertP5000
    { db := dbOneActive, acquired := 0 }
    { db := { dbOneActive with payrolls := [payroll4450], nextPayrollId := 2 },
      acquired := 0 }
    payroll4450 rfl (by decide)

/-- C2 counterexample: for gross 100.005 with no deductions or bonuses the
code stores the exact, unrounded 100.005; rounding half-up to two decimal
places as the claim requires would store 100.01. -/
theorem createPayroll_does_not_round_half_up :
    (SQLDatabase.createPayroll 0 insertP100005 { db := dbOneActive, acquired := 0 }).2
      = Except.ok payroll100005 ∧
    specRoundHalfUp2 (insertP100005.grossAmount - insertP100005.taxDeductions
        - insertP100005.otherDeductions.getD 0 + insertP100005.bonuses.getD 0)
      = 100010000 ∧
    payroll100005.netAmount ≠ 100010000 := by
  refine ⟨by decide, by decide, by decide⟩

/-- C5 (amended): the installed validation never examines `taxDeductions`,
`otherDeductions` or `bonuses`: any write whose employee is active, whose
month and year are in range and whose gross amount is positive succeeds
regardless of the sign of those fields, which are stored unchanged; only
the net-amount computation treats the absent ones as zero. -/
theorem createPayroll_ignores_deduction_signs (now : Int) (p : InsertPayroll)
    (s : PoolState)
    (hemp : s.db.employees.any (fun e => e.id == p.employeeId && e.status == "active") = true)
    (hm1 : 1 ≤ p.month) (hm2 : p.month ≤ 12)
    (hy1 : 2000 ≤ p.year) (hy2 : p.year ≤ 2100)
    (hg : 0 < p.grossAmount) :
    ∃ row : Payroll,
      (SQLDatabase.createPayroll now p s).2 = Except.ok row ∧
      row.taxDeductions = p.taxDeductions ∧
      row.otherDeductions = p.otherDeductions ∧
      row.bonuses = p.bonuses ∧
      (p.netAmount = none →
        row.netAmount = p.grossAmount - p.taxDeductions
          - p.otherDeductions.getD 0 + p.bonuses.getD 0) := by
  have hrow0 := validate_payroll_data_ok_of s.db now
    (SQLDatabase.createPayrollRow now p s.db) hemp hm1 hm2 hy1 hy2 hg
  rcases hrow0 with hv | hv
  · exact ⟨_, createPayroll_snd_eq now p s _ hv, rfl, rfl, rfl, fun hn => by
      simp [SQLDatabase.createPayrollRow, hn]⟩
  · exact ⟨_, createPayroll_snd_eq now p s _ hv, rfl, rfl, rfl, fun hn => by
      simp [SQLDatabase.createPayrollRow, hn]⟩

/-- Witness for C5 (amended) at the −50.00 tax-deduction input. -/
theorem createPayroll_ignores_deduction_signs_witness :
    ∃ row : Payroll,
      (SQLDatabase.createPayroll 0 insertPNegTax
          { db := dbOneActive, acquired := 0 }).2 = Except.ok row ∧
      row.taxDeductions = insertPNegTax.taxDeductions ∧
      row.otherDeductions = insertPNegTax.otherDeductions ∧
      row.bonuses = insertPNegTax.bonuses ∧
      (insertPNegTax.netAmount = none →
        row.netAmount = insertPNegTax.grossAmount - insertPNegTax.taxDeductions
          - insertPNegTax.otherDeductions.getD 0 + insertPNegTax.bonuses.getD 0) :=
  createPayroll_ignores_deduction_signs 0 insertPNegTax
    { db := dbOneActive, acquired := 0 }
    (by decide) (by decide) (by decide) (by decide) (by decide) (by decide)

/-- C5 counterexample: the write with tax deduction −50.00 does not fail
with any error — it succeeds and the negative deduction is stored (and even
raises the stored net amount to 1050.00). -/
theorem createPayroll_accepts_negative_tax_deduction :
    (SQLDatabase.createPayroll 0 insertPNegTax { db := dbOneActive, acquired := 0 }).2
      = Except.ok payrollNegTax ∧
    (SQLDatabase.createPayroll 0 insertPNegTax
        { db := dbOneActive, acquired := 0 }).1.db.payrolls = [payrollNegTax] := by
  refine ⟨by decide, by decide⟩

/-- C4: a concrete run showing employee-creation-with-new-user is not
atomic.  With no departments in the store, a request that creates a new
user and an employee referencing department 5 fails at the employee insert
(foreign key) — yet the freshly created user row stays committed, because
`createUser` and `createEmployee` run in two separate transactions and the
route-level wrapper opens none, contradicting its own comment. -/
theorem postEmployees_commits_user_after_employee_failure :
    (postEmployees reqNewUserBadDept { db := dbEmpty, acquired := 0 }).2
      = RouteResponse.badRequest (DbError.fkViolation "department_id") ∧
    ((postEmployees reqNewUserBadDept { db := dbEmpty, acquired := 0 }).1.db.users.map
        (fun u => u.email)) = ["john.doe@example.com"] ∧
    ((postEmployees reqNewUserBadDept { db := dbEmpty, acquired := 0 }).1.db.users.map
        (fun u => u.id)) = [1] ∧
    (postEmployees reqNewUserBadDept { db := dbEmpty, acquired := 0 }).1.db.employees
      = [] := by
  refine ⟨by decide, by decide, by decide, by decide⟩

/-- C6 (amended): on the insert paths the trigger enforces, in source
order: `InvalidReference` when the referenced employee is missing or not
active; `OutOfRange` for a month outside [1,12], or — month being in
range — a year outside [2000,2100]; `InvalidAmount` when, the previous
checks passing, the gross amount is not positive.  The single-record
create and the bulk monthly batch reject a row with exactly the same
verdict, since both insert through the same trigger.  (Updates run no
validation; see the counterexample.) -/
theorem payroll_insert_validation_spec :
    (∀ (db : DB) (now : Int) (new : Payroll),
        (db.employees.any (fun e => e.id == new.employeeId && e.status == "active"))
          = false →
        validate_payroll_data db now new
          = Except.error (DbError.invalidReference new.employeeId)) ∧
    (∀ (db : DB) (now : Int) (new : Payroll),
        (db.employees.any (fun e => e.id == new.employeeId && e.status == "active"))
          = true →
        (new.month < 1 ∨ 12 < new.month) →
        validate_payroll_data db now new
          = Except.error (DbError.outOfRange "month" new.month)) ∧
    (∀ (db : DB) (now : Int) (new : Payroll),
        (db.employees.any (fun e => e.id == new.employeeId && e.status == "active"))
          = true →
        1 ≤ new.month → new.month ≤ 12 →
        (new.year < 2000 ∨ 2100 < new.year) →
        validate_payroll_data db now new
          = Except.error (DbError.outOfRange "year" new.year)) ∧
    (∀ (db : DB) (now : Int) (new : Payroll),
        (db.employees.any (fun e => e.id == new.employeeId && e.status == "active"))
          = true →
        1 ≤ new.month → new.month ≤ 12 →
        2000 ≤ new.year → new.year ≤ 2100 →
        new.grossAmount ≤ 0 →
        validate_payroll_data db now new
          = Except.error (DbError.invalidAmount "Gross amount must be positive")) ∧
    (∀ (now : Int) (p : InsertPayroll) (s : PoolState) (e : DbError),
        (SQLDatabase.createPayroll now p s).2 = Except.error e ↔
        validate_payroll_data s.db now (SQLDatabase.createPayrollRow now p s.db)
          = Except.error e) ∧
    (∀ (now : Int) (r : Payroll) (s : PoolState) (e : DbError),
        (SQLDatabase.processMonthlyPayroll now [r] s).2 = Except.error e ↔
        validate_payroll_data s.db now { r with id := s.db.nextPayrollId }
          = Except.error e) := by
  refine ⟨?_, ?_, ?_, ?_, ?_, ?_⟩
  · intro db now new h
    have hc : ¬ ((db.employees.any fun e => e.id == new.employeeId && e.status == "active")
        = true) := by simp [h]
    unfold validate_payroll_data
    rw [if_pos hc]
  · intro db now new hemp hm
    have h1 : ¬ ¬ ((db.employees.any fun e => e.id == new.employeeId && e.status == "active")
        = true) := fun hn => hn hemp
    unfold validate_payroll_data
    rw [if_neg h1, if_pos hm]
  · intro db now new hemp hm1 hm2 hy
    have h1 : ¬ ¬ ((db.employees.any fun e => e.id == new.employeeId && e.status == "active")
        = true) := fun hn => hn hemp
    have h2 : ¬ (new.month < 1 ∨ 12 < new.month) := by omega
    unfold validate_payroll_data
    rw [if_neg h1, if_neg h2, if_pos hy]
  · intro db now new hemp hm1 hm2 hy1 hy2 hg
    have h1 : ¬ ¬ ((db.employees.any fun e => e.id == new.employeeId && e.status == "active")
        = true) := fun hn => hn hemp
    have h2 : ¬ (new.month < 1 ∨ 12 < new.month) := by omega
    have h3 : ¬ (new.year < 2000 ∨ 2100 < new.year) := by omega
    unfold validate_payroll_data
    rw [if_neg h1, if_neg h2, if_neg h3, if_pos hg]
  · intro now p s e
    cases hv : validate_payroll_data s.db now (SQLDatabase.createPayrollRow now p s.db) with
    | error e2 =>
        have hc : (SQLDatabase.createPayroll now p s).2 = Except.error e2 := by
          unfold SQLDatabase.createPayroll SQLDatabase.withTransaction
            SQLDatabase.createPayrollTx dbInsertPayrollRow
          rw [hv]
        rw [hc]
    | ok row2 =>
        rw [createPayroll_snd_eq now p s row2 hv]
  · intro now r s e
    cases hv : validate_payroll_data s.db now { r with id := s.db.nextPayrollId } with
    | error e2 =>
        have hc : (SQLDatabase.processMonthlyPayroll now [r] s).2 = Except.error e2 := by
          simp only [SQLDatabase.processMonthlyPayroll, SQLDatabase.withTransaction,
            processMonthlyBatch, dbInsertPayrollRow, hv]
        rw [hc]
        constructor
        · intro h
          injection h with h2
          rw [h2]
        · intro h
          injection h with h2
          rw [h2]
    | ok row2 =>
        have hc : (SQLDatabase.processMonthlyPayroll now [r] s).2 = Except.ok () := by
          simp only [SQLDatabase.processMonthlyPayroll, SQLDatabase.withTransaction,
            processMonthlyBatch, dbInsertPayrollRow, hv]
        rw [hc]
        constructor
        · intro h
          exact Except.noConfusion h
        · intro h
          exact Except.noConfusion h

/-- Witness for C6 (amended): a month of 13 on an otherwise valid row is
rejected by the trigger with the month out-of-range verdict. -/
theorem payroll_insert_validation_spec_witness :
    validate_payroll_data dbOneActive 0 { payroll90 with month := 13 }
      = Except.error (DbError.outOfRange "month" 13) :=
  payroll_insert_validation_spec.2.1 dbOneActive 0 { payroll90 with month := 13 }
    (by decide) (by decide)

/-- C6 counterexample: the validation trigger fires only before insert —
`updatePayroll` persists a month of 13 with no error of any kind, so not
every payroll write is validated. -/
theorem updatePayroll_bypasses_validation :
    (SQLDatabase.updatePayroll 1 { month := some 13 }
        { db := dbWithPayroll90, acquired := 0 }).2
      = Except.ok (some { payroll90 with month := 13 }) ∧
    (SQLDatabase.updatePayroll 1 { month := some 13 }
        { db := dbWithPayroll90, acquired := 0 }).1.db.payrolls
      = [{ payroll90 with month := 13 }] := by
  refine ⟨by decide, by decide⟩

/-- Counts produced by grouping sum to the number of grouped rows
(with enough fuel). -/
theorem groupCountsAux_sum {α : Type} [BEq α] (fuel : Nat) (l : List α)
    (hf : l.length ≤ fuel) :
    ((groupCountsAux fuel l).map (fun g => g.2)).sum = l.length := by
  induction fuel generalizing l with
  | zero =>
      cases l with
      | nil => rfl
      | cons a l => simp at hf
  | succ fuel ih =>
      cases l with
      | nil => rfl
      | cons a l =>
          simp only [groupCountsAux, List.map_cons, List.sum_cons]
          rw [ih (l.filter (fun x => ! (x == a)))
            (Nat.le_trans (List.length_filter_le _ _) (Nat.le_of_succ_le_succ hf))]
          have h := length_filter_add_length_filter_not l (fun x => x == a)
          simp only [List.length_cons]
          omega

/-- Counts produced by grouping sum to the number of grouped rows. -/
theorem groupCounts_sum {α : Type} [BEq α] (l : List α) :
    ((groupCounts l).map (fun g => g.2)).sum = l.length :=
  groupCountsAux_sum l.length l (Nat.le_refl _)

/-- Removing the non-matches of one key leaves the matches of a different
key untouched. -/
theorem filter_key_of_filter_not {α : Type} [BEq α] [LawfulBEq α] (l : List α) (a k : α)
    (hne : (k == a) = false) :
    (l.filter (fun x => ! (x == a))).filter (fun x => x == k)
      = l.filter (fun x => x == k) := by
  have hka : ¬ k = a := by simpa using hne
  have hak : ¬ a = k := fun hc => hka hc.symm
  induction l with
  | nil => rfl
  | cons b l ih =>
      by_cases hba : b = a
      · simp [List.filter_cons, hba, hak, hka, ih]
      · by_cases hbk : b = k
        · simp [List.filter_cons, hba, hbk, hka, hak, ih]
        · simp [List.filter_cons, hba, hbk, hka, hak, ih]

/-- Every group entry carries the exact occurrence count of its key, and
its key occurs in the grouped list (with enough fuel). -/
theorem groupCountsAux_mem {α : Type} [BEq α] [LawfulBEq α] (fuel : Nat) (l : List α)
    (hf : l.length ≤ fuel) (g : α × Nat)
    (h : g ∈ groupCountsAux fuel l) :
    g.2 = (l.filter (fun x => x == g.1)).length ∧ g.1 ∈ l := by
  induction fuel generalizing l with
  | zero =>
      cases l with
      | nil => exact absurd h (List.not_mem_nil g)
      | cons a l => simp at hf
  | succ fuel ihf =>
      cases l with
      | nil => exact absurd h (List.not_mem_nil g)
      | cons a l =>
      have ih := fun h2 => ihf (l.filter (fun x => ! (x == a)))
        (Nat.le_trans (List.length_filter_le _ _) (Nat.le_of_succ_le_succ hf)) h2
      simp only [groupCountsAux] at h
      rcases List.mem_cons.mp h with h1 | h1
      · subst h1
        constructor
        · simp only [List.filter_cons]
          have ha : (a == a) = true := by simp
          rw [if_pos ha]
          simp only [List.length_cons]
          omega
        · exact List.mem_cons_self a l
      · obtain ⟨hn, hkmem⟩ := ih h1
        have hne : (g.1 == a) = false := by
          have h2 := List.of_mem_filter hkmem
          simpa using h2
        have hmem : g.1 ∈ l := List.mem_of_mem_filter hkmem
        constructor
        · rw [hn, filter_key_of_filter_not l a g.1 hne]
          rw [List.filter_cons]
          have haz : ¬ (a == g.1) = true := by
            simp only [beq_eq_false_iff_ne] at hne
            simpa using fun hc => hne hc.symm
          rw [if_neg haz]
        · exact List.mem_cons_of_mem a hmem

/-- Every group entry carries the exact occurrence count of its key, and
its key occurs in the grouped list. -/
theorem groupCounts_mem {α : Type} [BEq α] [LawfulBEq α] (l : List α) (g : α × Nat)
    (h : g ∈ groupCounts l) :
    g.2 = (l.filter (fun x => x == g.1)).length ∧ g.1 ∈ l :=
  groupCountsAux_mem l.length l (Nat.le_refl _) g h

/-- Occurrence count of a join row equals the number of active employees
assigned to that department, whenever the department exists. -/
theorem deptJoin_count_aux (depts : List Department) (d : Nat) (dept : Department)
    (hfind : depts.find? (fun dd => dd.id == d) = some dept) (l : List Employee) :
    ((l.filterMap (fun e =>
        match e.departmentId with
        | none => none
        | some dd => (depts.find? (fun x => x.id == dd)).map (fun x => (dd, x.name)))).filter
      (fun r => r == (d, dept.name))).length
      = (l.filter (fun e => e.departmentId == some d)).length := by
  induction l with
  | nil => rfl
  | cons e l ih =>
      rw [List.filterMap_cons, List.filter_cons]
      cases he : e.departmentId with
      | none => simpa [he] using ih
      | some dd =>
          by_cases hdd : dd = d
          · subst hdd
            simp [he, hfind, List.filter_cons, ih]
          · cases hf : depts.find? (fun x => x.id == dd) with
            | none => simpa [he, hf, hdd] using ih
            | some x => simpa [he, hf, List.filter_cons, hdd] using ih

/-- Specialization of `deptJoin_count_aux` to the distribution's join. -/
theorem deptJoinRows_count (db : DB) (d : Nat) (dept : Department)
    (hfind : db.departments.find? (fun dd => dd.id == d) = some dept) :
    ((deptJoinRows db).filter (fun r => r == (d, dept.name))).length
      = ((activeEmployees db).filter (fun e => e.departmentId == some d)).length :=
  deptJoin_count_aux db.departments d dept hfind (activeEmployees db)

/-- Every join row names an existing department and carries its name. -/
theorem deptJoinRows_mem (db : DB) (k : Nat × String) (h : k ∈ deptJoinRows db) :
    ∃ dept, db.departments.find? (fun dd => dd.id == k.1) = some dept ∧
      dept.name = k.2 := by
  unfold deptJoinRows at h
  obtain ⟨e, he, hf⟩ := List.mem_filterMap.mp h
  revert hf
  cases hdd : e.departmentId with
  | none => intro hf; exact Option.noConfusion hf
  | some dd =>
      intro hf
      have hf2 : (db.departments.find? (fun x => x.id == dd)).map
          (fun x => (dd, x.name)) = some k := hf
      cases hfind : db.departments.find? (fun x => x.id == dd) with
      | none => rw [hfind] at hf2; exact Option.noConfusion hf2
      | some x =>
          rw [hfind] at hf2
          simp only [Option.map_some', Option.some.injEq] at hf2
          refine ⟨x, ?_, ?_⟩
          · rw [← hf2]
            exact hfind
          · rw [← hf2]

/-- A join row can only come from an active employee, so its existence
makes the active headcount positive. -/
theorem activeEmployees_pos_of_joinRow (db : DB) (k : Nat × String)
    (h : k ∈ deptJoinRows db) : 0 < (activeEmployees db).length := by
  unfold deptJoinRows at h
  obtain ⟨e, he, -⟩ := List.mem_filterMap.mp h
  exact List.length_pos_of_mem he

/-- The join has exactly one row per active employee assigned to an
existing department. -/
theorem deptJoinRows_length (db : DB) (l : List Employee) :
    (l.filterMap (fun e =>
        match e.departmentId with
        | none => none
        | some dd => (db.departments.find? (fun x => x.id == dd)).map
            (fun x => (dd, x.name)))).length
      = (l.filter (hasDepartment db)).length := by
  induction l with
  | nil => rfl
  | cons e l ih =>
      rw [List.filterMap_cons, List.filter_cons]
      cases he : e.departmentId with
      | none => simpa [hasDepartment, he] using ih
      | some dd =>
          cases hf : db.departments.find? (fun x => x.id == dd) with
          | none =>
              have hany : db.departments.any (fun x => x.id == dd) = false :=
                List.any_eq_false.mpr (List.find?_eq_none.mp hf)
              simpa [hasDepartment, he, hf, hany] using ih
          | some x =>
              have hp := @List.find?_some Department (fun y => y.id == dd) x db.departments hf
              have hany : db.departments.any (fun x => x.id == dd) = true :=
                List.any_eq_true.mpr ⟨x, List.mem_of_find?_eq_some hf, hp⟩
              simpa [hasDepartment, he, hf, hany] using ih

/-- C9 (amended): every returned entry names an existing department and
carries the exact count of active employees assigned to it; the list is
sorted descending by count; each percentage is `Math.round` of the count's
share of the total active-employee count; and the counts sum to the number
of active employees assigned to an existing department — which equals the
total active-employee count only when every active employee has a
department, because the inner join drops department-less active employees
while the percentage denominator still counts them. -/
theorem getDepartmentDistribution_spec (db : DB) :
    (((SQLDatabase.getDepartmentDistribution db).map (fun sl => sl.count)).sum
        = ((activeEmployees db).filter (hasDepartment db)).length) ∧
    ((SQLDatabase.getDepartmentDistribution db).Pairwise
        (fun a b => b.count ≤ a.count)) ∧
    (∀ sl ∈ SQLDatabase.getDepartmentDistribution db,
        sl.count = ((activeEmployees db).filter
            (fun e => e.departmentId == some sl.id)).length ∧
        sl.percentage = jsRoundPct sl.count (activeEmployees db).length ∧
        ∃ dept, db.departments.find? (fun dd => dd.id == sl.id) = some dept ∧
          dept.name = sl.name) := by
  refine ⟨?_, ?_, ?_⟩
  · have hcomp : ((SQLDatabase.getDepartmentDistribution db).map (fun sl => sl.count))
        = (List.insertionSort countGE (groupCounts (deptJoinRows db))).map
            (fun g => g.2) := by
      unfold SQLDatabase.getDepartmentDistribution
      rw [List.map_map]
      rfl
    rw [hcomp]
    have hsum : ((List.insertionSort countGE (groupCounts (deptJoinRows db))).map
        (fun g => g.2)).sum
        = ((groupCounts (deptJoinRows db)).map (fun g => g.2)).sum :=
      ((List.perm_insertionSort countGE _).map (fun g => g.2)).sum_eq
    rw [hsum, groupCounts_sum]
    exact deptJoinRows_length db (activeEmployees db)
  · have hs : List.Sorted countGE
        (List.insertionSort countGE (groupCounts (deptJoinRows db))) :=
      List.sorted_insertionSort countGE _
    unfold SQLDatabase.getDepartmentDistribution
    exact List.Pairwise.map _ (fun a b hab => hab) hs
  · intro sl hsl
    unfold SQLDatabase.getDepartmentDistribution at hsl
    obtain ⟨g, hg, hmk⟩ := List.mem_map.mp hsl
    have hgmem : g ∈ groupCounts (deptJoinRows db) :=
      (List.perm_insertionSort countGE _).mem_iff.mp hg
    obtain ⟨hcount, hkmem⟩ := groupCounts_mem (deptJoinRows db) g hgmem
    obtain ⟨dept, hfind, hname⟩ := deptJoinRows_mem db g.1 hkmem
    have htotal : 0 < (activeEmployees db).length :=
      activeEmployees_pos_of_joinRow db g.1 hkmem
    subst hmk
    refine ⟨?_, ?_, ⟨dept, hfind, hname⟩⟩
    · show g.2 = ((activeEmployees db).filter
          (fun e => e.departmentId == some g.1.1)).length
      rw [hcount]
      have h2 := deptJoinRows_count db g.1.1 dept hfind
      rw [hname] at h2
      have h3 : (g.1.1, g.1.2) = g.1 := Prod.mk.eta
      rw [h3] at h2
      exact h2
    · show (if 0 < (activeEmployees db).length then
          jsRoundPct g.2 (activeEmployees db).length else 0)
        = jsRoundPct g.2 (activeEmployees db).length
      rw [if_pos htotal]

/-- Witness for C9 (amended): in `dbDist` the single entry for the IT
department counts its one active employee and carries a 100 percentage. -/
theorem getDepartmentDistribution_spec_witness :
    (1 : Nat) = ((activeEmployees dbDist).filter
        (fun e => e.departmentId == some 1)).length ∧
    (100 : Int) = jsRoundPct 1 (activeEmployees dbDist).length := by
  have h := (getDepartmentDistribution_spec dbDist).2.2
    { id := 1, name := "IT", count := 1, percentage := 100 } (by decide)
  exact ⟨h.1, h.2.1⟩

/-- C9 counterexample: a store whose only active employee has no
department yields an empty distribution, whose counts sum to 0, not to the
active-employee total 1 — the inner join silently drops department-less
active employees. -/
theorem getDepartmentDistribution_drops_departmentless :
    SQLDatabase.getDepartmentDistribution dbOneActive = [] ∧
    (activeEmployees dbOneActive).length = 1 := by
  refine ⟨by decide, by decide⟩
